import Mathlib

/-!
Shallow embedding of the bitpanda-aml check-orchestration pipeline
(github.com/Beka01247/bitpanda-aml), translated from the Go sources:

* internal/domain/events.go        — check record, statuses, risk levels, events
* internal/domain/asset.go         — asset registry and address validators
* internal/infrastructure/repositories/memory_check_repository.go — check registry
* internal/infrastructure/token/hmac.go — signed report tokens and RabbitMQ bus retry/DLQ loop
* internal/application/*.go        — intake, risk-assessment, report, failure use cases
* internal/transport/http/handlers.go — bounded-wait facade and status query

Go machine integers are modelled as Lean Int (no overflow is relevant at the
value ranges involved); Go time.Time values are modelled as an abstract
integer timeline where Go's t1.After(t2) is t2 < t1; Go byte strings that the
token component manipulates byte-by-byte are modelled as List Nat with each
byte below 256.  Calls to wall-clock time are made explicit arguments.
External effects (the AML provider, the sanctions provider, PDF rendering,
the HMAC-SHA256 tag) are passed in as explicit arguments or function
parameters; everything else follows the Go control flow statement by
statement.
-/

/-! ## Domain model (internal/domain/events.go) -/

/-- Status of a check record (Go AMLCheckStatus). -/
inductive AMLCheckStatus
  | processing
  | completed
  | failed
deriving Repr, DecidableEq

/-- Risk level labels (Go RiskLevel). -/
inductive RiskLevel
  | low
  | medium
  | high
  | critical
deriving Repr, DecidableEq

/-- Go domain.DeriveRiskLevel: threshold cascade on the integer score. -/
def DeriveRiskLevel (score : Int) : RiskLevel :=
  if score ≥ 80 then .critical
  else if score ≥ 60 then .high
  else if score ≥ 30 then .medium
  else .low

/-- Go domain.SanctionsIdentification. -/
structure SanctionsIdentification where
  category : String
  name : String
  url : String
deriving Repr, DecidableEq

/-- Go domain.SanctionsResult. -/
structure SanctionsResult where
  hit : Bool
  identifications : List SanctionsIdentification
deriving Repr, DecidableEq

/-- Go domain.AMLCheck; the Go *SanctionsResult pointer (possibly nil) is an
Option, timestamps are integers on the abstract timeline. -/
structure AMLCheck where
  id : String
  address : String
  currency : String
  status : AMLCheckStatus
  riskScore : Int
  riskLevel : RiskLevel
  categories : List String
  sanctions : Option SanctionsResult
  reportKey : String
  errorMessage : String
  createdAt : Int
  updatedAt : Int
  expiresAt : Int
deriving Repr, DecidableEq

/-- Go time t1.After(t2): strict comparison. -/
def goAfter (t1 t2 : Int) : Bool := t2 < t1

/-- Go domain.NewAMLCheck with the generated uuid and the current time made
explicit arguments. -/
def NewAMLCheck (newID address currency : String) (now ttl : Int) : AMLCheck where
  id := newID
  address := address
  currency := currency
  status := .processing
  riskScore := 0
  riskLevel := .low
  categories := []
  sanctions := some { hit := false, identifications := [] }
  reportKey := ""
  errorMessage := ""
  createdAt := now
  updatedAt := now
  expiresAt := now + ttl

/-- Go AMLCheck.MarkCompleted: unconditionally overwrites status and result
fields; the wall clock for UpdatedAt is the explicit argument now. -/
def AMLCheck.MarkCompleted (c : AMLCheck) (riskScore : Int) (riskLevel : RiskLevel)
    (categories : List String) (sanctions : Option SanctionsResult)
    (reportKey : String) (now : Int) : AMLCheck :=
  { c with
    status := .completed
    riskScore := riskScore
    riskLevel := riskLevel
    categories := categories
    sanctions := sanctions
    reportKey := reportKey
    updatedAt := now }

/-- Go AMLCheck.MarkFailed: unconditionally overwrites status and error. -/
def AMLCheck.MarkFailed (c : AMLCheck) (errorMessage : String) (now : Int) : AMLCheck :=
  { c with
    status := .failed
    errorMessage := errorMessage
    updatedAt := now }

/-- Go AMLCheck.IsExpired at explicit time now. -/
def AMLCheck.IsExpired (c : AMLCheck) (now : Int) : Bool :=
  goAfter now c.expiresAt

/-! ## Check registry (internal/infrastructure/repositories/memory_check_repository.go)

The Go map from id to record is modelled as an association list whose keys
are unique in every state the system builds; each operation returns the new
registry state together with the Go error (None on success), mirroring the
fact that the Go methods mutate the receiver map only on the success path. -/

abbrev Registry := List (String × AMLCheck)

/-- Lookup in the map, Go MemoryCheckRepository.Get (nil, nil means absent). -/
def regGet : Registry → String → Option AMLCheck
  | [], _ => none
  | (k, c) :: rest, id => if k = id then some c else regGet rest id

/-- Go MemoryCheckRepository.Create: error and no mutation when the id is
already present, otherwise insert. -/
def regCreate (r : Registry) (c : AMLCheck) : Registry × Option String :=
  if (regGet r c.id).isSome then
    (r, some "check already exists")
  else
    (r ++ [(c.id, c)], none)

/-- Assignment at a key in the map (Go r.checks[check.ID] = check). -/
def regReplace (id : String) (c : AMLCheck) : Registry → Registry
  | [] => []
  | (k, x) :: rest =>
      if k = id then (id, c) :: regReplace id c rest
      else (k, x) :: regReplace id c rest

/-- Go MemoryCheckRepository.Update: error and no mutation when the id is
absent, otherwise replace the stored record. -/
def regUpdate (r : Registry) (c : AMLCheck) : Registry × Option String :=
  if (regGet r c.id).isSome then
    (regReplace c.id c r, none)
  else
    (r, some "check not found")

/-- Go MemoryCheckRepository.CleanupExpired: for each entry, delete it and
count it when now.After(ExpiresAt); returns (count, remaining map). -/
def regCleanupExpired (r : Registry) (now : Int) : Nat × Registry :=
  ((r.filter fun e => goAfter now e.2.expiresAt).length,
   r.filter fun e => !(goAfter now e.2.expiresAt))

/-- Well formed registry: map keys are unique (always true of a Go map). -/
abbrev regWF (r : Registry) : Prop := (r.map Prod.fst).Nodup

/-! ## Helper lemmas about the registry -/

theorem regGet_append (r₁ r₂ : Registry) (id : String) :
    regGet (r₁ ++ r₂) id = ((regGet r₁ id).or (regGet r₂ id)) := by
  induction r₁ with
  | nil => simp [regGet]
  | cons e rest ih =>
      obtain ⟨k, c⟩ := e
      by_cases h : k = id <;> simp [regGet, h, ih]

theorem regGet_replace_self (r : Registry) (id : String) (c : AMLCheck)
    (h : (regGet r id).isSome) :
    regGet (regReplace id c r) id = some c := by
  induction r with
  | nil => simp [regGet] at h
  | cons e rest ih =>
      obtain ⟨k, x⟩ := e
      by_cases hk : k = id
      · subst hk
        simp [regReplace, regGet]
      · have h' : (regGet rest id).isSome := by simpa [regGet, hk] using h
        simp [regReplace, regGet, hk, ih h']

theorem regGet_replace_ne (r : Registry) (id id' : String) (c : AMLCheck)
    (h : id' ≠ id) :
    regGet (regReplace id c r) id' = regGet r id' := by
  induction r with
  | nil => simp [regReplace]
  | cons e rest ih =>
      obtain ⟨k, x⟩ := e
      by_cases hk : k = id
      · subst hk
        simp [regReplace, regGet, Ne.symm h, ih]
      · by_cases hk' : k = id'
        · subst hk'
          simp [regReplace, regGet, hk, ih]
        · simp [regReplace, regGet, hk, hk', ih]

/-! ## C9: risk level derivation -/

/-- C9: DeriveRiskLevel maps scores below 30 to Low, 30 through 59 to Medium,
60 through 79 to High and 80 and above to Critical, each boundary inclusive
on its lower bound. -/
theorem c9_derive_risk_level (score : Int) :
    (score < 30 → DeriveRiskLevel score = .low) ∧
    (30 ≤ score ∧ score ≤ 59 → DeriveRiskLevel score = .medium) ∧
    (60 ≤ score ∧ score ≤ 79 → DeriveRiskLevel score = .high) ∧
    (80 ≤ score → DeriveRiskLevel score = .critical) := by
  unfold DeriveRiskLevel
  refine ⟨fun h => ?_, fun h => ?_, fun h => ?_, fun h => ?_⟩ <;>
    · split <;> first | rfl | (split <;> first | rfl | (split <;> first | rfl | omega) | omega) | omega

/-- Witness for C9 at the three inclusive lower boundaries and one low score. -/
theorem c9_derive_risk_level_witness :
    DeriveRiskLevel 29 = .low ∧ DeriveRiskLevel 30 = .medium ∧
    DeriveRiskLevel 60 = .high ∧ DeriveRiskLevel 80 = .critical :=
  ⟨(c9_derive_risk_level 29).1 (by norm_num),
   (c9_derive_risk_level 30).2.1 (by norm_num),
   (c9_derive_risk_level 60).2.2.1 (by norm_num),
   (c9_derive_risk_level 80).2.2.2 (by norm_num)⟩

theorem regGet_eq_none_of_not_mem (r : Registry) (id : String)
    (h : id ∉ r.map Prod.fst) : regGet r id = none := by
  induction r with
  | nil => simp [regGet]
  | cons e rest ih =>
      obtain ⟨k, x⟩ := e
      simp only [List.map_cons, List.mem_cons, not_or] at h
      simp [regGet, Ne.symm h.1, ih h.2]

theorem regGet_filter_none (r : Registry) (id : String) (p : String × AMLCheck → Bool)
    (h : regGet r id = none) : regGet (r.filter p) id = none := by
  induction r with
  | nil => simp [regGet]
  | cons e rest ih =>
      obtain ⟨k, x⟩ := e
      by_cases hk : k = id
      · simp [regGet, hk] at h
      · have h' : regGet rest id = none := by simpa [regGet, hk] using h
        by_cases hp : p (k, x) <;> simp [List.filter_cons, hp, regGet, hk, ih h']

/-! ## C4: cleanupExpired removes strictly-expired records

The claim says a record whose ExpiresAt equals now is removed; the code
deletes an entry only when now.After(ExpiresAt), a strict comparison, so the
boundary record is kept.  The amended statement (strictly before now) is
proved below. -/

/-- Concrete check whose ExpiresAt is exactly 5, used as the C4 boundary
counterexample and in other concrete witnesses. -/
def checkExpFive : AMLCheck := NewAMLCheck "cid4" "addr4" "BTC" 0 5

/-- C4 counterexample: at now = 5 the record with ExpiresAt = 5 is NOT
removed and the returned count is 0, refuting the claim that a record whose
ExpiresAt equals now is removed. -/
theorem c4_cleanup_boundary_counterexample :
    checkExpFive.expiresAt = 5 ∧
    regCleanupExpired [("cid4", checkExpFive)] 5 = (0, [("cid4", checkExpFive)]) ∧
    regGet (regCleanupExpired [("cid4", checkExpFive)] 5).2 "cid4" = some checkExpFive := by
  refine ⟨rfl, ?_, ?_⟩ <;> rfl

/-- C4 (amended): cleanupExpired(now) removes exactly the records whose
ExpiresAt is strictly before now — a record whose ExpiresAt equals now is
kept — returns the number of records removed, and leaves all other records
present and unchanged. -/
theorem c4_cleanup_expired (r : Registry) (now : Int) (hwf : regWF r) :
    (regCleanupExpired r now).1 = r.length - (regCleanupExpired r now).2.length ∧
    ∀ id, regGet (regCleanupExpired r now).2 id =
      match regGet r id with
      | none => none
      | some c => if goAfter now c.expiresAt then none else some c := by
  constructor
  · have h := List.length_eq_length_filter_add (l := r) (fun e => goAfter now e.2.expiresAt)
    simp only [regCleanupExpired]
    omega
  · intro id
    simp only [regCleanupExpired]
    induction r with
    | nil => simp [regGet]
    | cons e rest ih =>
        obtain ⟨k, x⟩ := e
        have hpair : k ∉ rest.map Prod.fst ∧ (rest.map Prod.fst).Nodup := by
          simpa [regWF, List.nodup_cons] using hwf
        have ihr := ih hpair.2
        by_cases hk : k = id
        · subst hk
          by_cases hexp : goAfter now x.expiresAt
          · have hnone : regGet rest k = none := regGet_eq_none_of_not_mem rest k hpair.1
            simp [List.filter_cons, hexp, regGet, regGet_filter_none rest k _ hnone]
          · simp [List.filter_cons, hexp, regGet]
        · by_cases hexp : goAfter now x.expiresAt
          · simpa [List.filter_cons, hexp, regGet, hk] using ihr
          · simpa [List.filter_cons, hexp, regGet, hk] using ihr

/-- Second concrete check, ExpiresAt = 10. -/
def checkExpTen : AMLCheck := NewAMLCheck "cid10" "addr10" "ETH" 0 10

/-- Witness for C4 at a concrete registry: at now = 5 the record that expired
at 3 is removed (count 1) and the record expiring at 10 survives unchanged. -/
theorem c4_cleanup_expired_witness :
    regGet (regCleanupExpired [("cidE", NewAMLCheck "cidE" "a" "BTC" 0 3), ("cid10", checkExpTen)] 5).2 "cidE" = none ∧
    regGet (regCleanupExpired [("cidE", NewAMLCheck "cidE" "a" "BTC" 0 3), ("cid10", checkExpTen)] 5).2 "cid10" = some checkExpTen ∧
    (regCleanupExpired [("cidE", NewAMLCheck "cidE" "a" "BTC" 0 3), ("cid10", checkExpTen)] 5).1 = 1 := by
  have h := c4_cleanup_expired [("cidE", NewAMLCheck "cidE" "a" "BTC" 0 3), ("cid10", checkExpTen)] 5 (by decide)
  exact ⟨(h.2 "cidE").trans rfl, (h.2 "cid10").trans rfl, h.1.trans rfl⟩

/-! ## C10: registry operations touch only the entry they name -/

/-- C10: create and update leave every record stored under a different id
unchanged, and when create fails (id present) or update fails (id absent) the
entire registry mapping is unchanged. -/
theorem c10_registry_frame (r : Registry) (c : AMLCheck) (id' : String) (h : id' ≠ c.id) :
    regGet (regCreate r c).1 id' = regGet r id' ∧
    regGet (regUpdate r c).1 id' = regGet r id' ∧
    ((regCreate r c).2.isSome → (regCreate r c).1 = r) ∧
    ((regUpdate r c).2.isSome → (regUpdate r c).1 = r) := by
  refine ⟨?_, ?_, ?_, ?_⟩
  · by_cases hex : (regGet r c.id).isSome
    · simp [regCreate, hex]
    · simp [regCreate, hex, regGet_append, regGet, Ne.symm h]
  · by_cases hex : (regGet r c.id).isSome
    · simp [regUpdate, hex, regGet_replace_ne r c.id id' c h]
    · simp [regUpdate, hex]
  · intro herr
    by_cases hex : (regGet r c.id).isSome
    · simp [regCreate, hex]
    · simp [regCreate, hex] at herr
  · intro herr
    by_cases hex : (regGet r c.id).isSome
    · simp [regUpdate, hex] at herr
    · simp [regUpdate, hex]

/-- Witness for C10: concrete two-record registry, creating a third id and
updating one id leaves the other id's record unchanged; a duplicate create
and an absent-id update leave the registry unchanged. -/
theorem c10_registry_frame_witness :
    regGet (regCreate [("cid4", checkExpFive)] checkExpTen).1 "cid4" = some checkExpFive ∧
    regGet (regUpdate [("cid4", checkExpFive), ("cid10", checkExpTen)] checkExpTen).1 "cid4" = some checkExpFive ∧
    (regCreate [("cid4", checkExpFive)] checkExpFive).1 = [("cid4", checkExpFive)] ∧
    (regUpdate [("cid4", checkExpFive)] checkExpTen).1 = [("cid4", checkExpFive)] := by
  have h1 := c10_registry_frame [("cid4", checkExpFive)] checkExpTen "cid4" (by decide)
  have h2 := c10_registry_frame [("cid4", checkExpFive), ("cid10", checkExpTen)] checkExpTen "cid4" (by decide)
  have h3 := c10_registry_frame [("cid4", checkExpFive)] checkExpFive "zzz" (by decide)
  refine ⟨?_, ?_, ?_, ?_⟩
  · rw [h1.1]; rfl
  · rw [h2.2.1]; rfl
  · exact h3.2.2.1 (by rfl)
  · exact h1.2.2.2 (by rfl)

/-! ## Events (internal/domain/events.go) and the failure handler
(internal/application/handle_check_failed.go) -/

/-- Routing keys / event type tags. -/
def EventAMLCheckRequested : String := "aml.check.requested"

def EventAMLCheckCompleted : String := "aml.check.completed"

def EventAMLReportReady : String := "aml.report.ready"

def EventAMLCheckFailed : String := "aml.check.failed"

/-- The four event payload shapes, one per event type tag. -/
inductive EventPayload
  | requested (checkID address currency : String)
  | completed (checkID : String) (riskScore : Int) (riskLevel : RiskLevel)
      (categories : List String) (sanctions : Option SanctionsResult)
  | failed (checkID errorMessage : String)
  | reportReady (checkID reportKey : String)
deriving Repr, DecidableEq

/-- A publish call handed to the bus: routing key plus payload. -/
abbrev Published := List (String × EventPayload)

/-- Go HandleCheckFailedUseCase.Execute: load the check, mark it failed
unconditionally, store the update. -/
def HandleCheckFailedExecute (reg : Registry) (checkID errorMessage : String)
    (now : Int) : Registry × Option String :=
  match regGet reg checkID with
  | none => (reg, some "check not found")
  | some check => regUpdate reg (check.MarkFailed errorMessage now)

/-! ## C2: one-way status transitions

The claim asserts that once a check is terminal no operation changes its
status again.  MarkCompleted and MarkFailed overwrite the status without
inspecting it, and HandleCheckFailedUseCase.Execute marks whatever record it
loads as failed, so a Completed check hit by a late check.failed event
regresses to Failed: the claim is refuted below and the surviving part —
every operation moves a check to a terminal status and none ever returns it
to Processing — is proved. -/

/-- Concrete check that has already reached the terminal Completed state. -/
def completedSample : AMLCheck :=
  (NewAMLCheck "cid2" "addr2" "ETH" 0 100).MarkCompleted 85 .critical []
    (some { hit := false, identifications := [] }) "cid2.pdf" 1

/-- C2 counterexample: the failure handler, run against a registry whose
record is already Completed (terminal), changes its status to Failed. -/
theorem c2_terminal_not_frozen_counterexample :
    completedSample.status = .completed ∧
    regGet (HandleCheckFailedExecute [("cid2", completedSample)] "cid2" "late failure" 2).1 "cid2" =
      some (completedSample.MarkFailed "late failure" 2) ∧
    (completedSample.MarkFailed "late failure" 2).status = .failed := by
  exact ⟨rfl, rfl, rfl⟩

/-- The status-mutating operations of the system. -/
inductive CheckOp
  | markCompleted (riskScore : Int) (riskLevel : RiskLevel) (categories : List String)
      (sanctions : Option SanctionsResult) (reportKey : String) (now : Int)
  | markFailed (errorMessage : String) (now : Int)

/-- Apply one status-mutating operation to a check record. -/
def applyCheckOp (c : AMLCheck) : CheckOp → AMLCheck
  | .markCompleted rs rl cat s rk now => c.MarkCompleted rs rl cat s rk now
  | .markFailed msg now => c.MarkFailed msg now

/-- C2 (amended): the lifecycle moves one way out of Processing — MarkCompleted
always yields Completed, MarkFailed always yields Failed, and no operation
ever returns a check to Processing — but terminal states are not guarded:
the operations overwrite the status of an already-terminal check. -/
theorem c2_status_one_way (c : AMLCheck) (op : CheckOp) (riskScore : Int)
    (riskLevel : RiskLevel) (categories : List String)
    (sanctions : Option SanctionsResult) (reportKey errorMessage : String) (now : Int) :
    (c.MarkCompleted riskScore riskLevel categories sanctions reportKey now).status = .completed ∧
    (c.MarkFailed errorMessage now).status = .failed ∧
    ((applyCheckOp c op).status = .completed ∨ (applyCheckOp c op).status = .failed) := by
  refine ⟨rfl, rfl, ?_⟩
  cases op
  · exact Or.inl rfl
  · exact Or.inr rfl

/-! ## C5: risk-assessment worker error handling
(internal/application/process_aml_check.go)

The two provider calls are external capabilities; their outcomes are the
explicit Except arguments.  The function returns the list of publish calls
made on the bus and the error returned to the bus handler. -/

/-- Go domain.AMLResult. -/
structure AMLResult where
  riskScore : Int
  riskLevel : RiskLevel
  categories : List String
deriving Repr, DecidableEq

/-- Go ProcessAMLCheckUseCase.Execute: on AML-provider failure publish
check.failed and return the error; on success call the sanctions provider,
substituting an empty no-hit result if it fails, and publish check.completed. -/
def ProcessAMLCheckExecute (checkID : String)
    (amlRes : Except String AMLResult)
    (sanRes : Except String SanctionsResult) : Published × Option String :=
  match amlRes with
  | .error e =>
      let msg := "AML check failed: " ++ e
      ([(EventAMLCheckFailed, .failed checkID msg)], some msg)
  | .ok r =>
      let sanctions : SanctionsResult :=
        match sanRes with
        | .error _ => { hit := false, identifications := [] }
        | .ok s => s
      ([(EventAMLCheckCompleted,
         .completed checkID r.riskScore r.riskLevel r.categories (some sanctions))], none)

/-- True when the publish is a check.completed event. -/
def isCompletedPublish : String × EventPayload → Bool
  | (rk, _) => rk = EventAMLCheckCompleted

/-- C5: if the risk provider fails, the worker publishes exactly one
check.failed event carrying the error message and no check.completed event;
if the risk provider succeeds and the sanctions provider fails, the worker
still publishes check.completed with the empty no-hit sanctions result. -/
theorem c5_risk_worker_error_handling (checkID e e' : String)
    (sanRes : Except String SanctionsResult) (r : AMLResult) :
    (ProcessAMLCheckExecute checkID (.error e) sanRes =
      ([(EventAMLCheckFailed, .failed checkID ("AML check failed: " ++ e))],
       some ("AML check failed: " ++ e)) ∧
     (ProcessAMLCheckExecute checkID (.error e) sanRes).1.all
       (fun p => !(isCompletedPublish p)) = true) ∧
    ProcessAMLCheckExecute checkID (.ok r) (.error e') =
      ([(EventAMLCheckCompleted,
         .completed checkID r.riskScore r.riskLevel r.categories
           (some { hit := false, identifications := [] }))], none) := by
  refine ⟨⟨rfl, ?_⟩, rfl⟩
  simp [ProcessAMLCheckExecute, isCompletedPublish, EventAMLCheckFailed, EventAMLCheckCompleted]

/-! ## Assets and intake (internal/domain/asset.go,
internal/application/process_aml_check.go CheckAddressUseCase) -/

/-- Whitespace recognised by Go strings.TrimSpace (the code points that can
occur in single-byte form; sufficient for the address alphabets involved). -/
def isGoSpace (c : Char) : Bool :=
  c = ' ' ∨ c = '\t' ∨ c = '\n' ∨ c = Char.ofNat 11 ∨ c = Char.ofNat 12 ∨
  c = '\r' ∨ c = Char.ofNat 133 ∨ c = Char.ofNat 160

/-- Go strings.TrimSpace. -/
def goTrimSpace (s : List Char) : List Char :=
  ((s.dropWhile isGoSpace).reverse.dropWhile isGoSpace).reverse

/-- Hex character class of the Ethereum address regular expression. -/
def isHexDigit (c : Char) : Bool :=
  ('0' ≤ c ∧ c ≤ '9') ∨ ('a' ≤ c ∧ c ≤ 'f') ∨ ('A' ≤ c ∧ c ≤ 'F')

/-- Go Ethereum.ValidateAddress: 0x followed by exactly 40 hex characters. -/
def ethValidateChars : List Char → Bool
  | '0' :: 'x' :: rest => rest.length = 40 ∧ rest.all isHexDigit
  | _ => false

/-- Base58 class of the legacy Bitcoin regular expression
[a-km-zA-HJ-NP-Z1-9]. -/
def isBase58Class (c : Char) : Bool :=
  ('a' ≤ c ∧ c ≤ 'k') ∨ ('m' ≤ c ∧ c ≤ 'z') ∨ ('A' ≤ c ∧ c ≤ 'H') ∨
  ('J' ≤ c ∧ c ≤ 'N') ∨ ('P' ≤ c ∧ c ≤ 'Z') ∨ ('1' ≤ c ∧ c ≤ '9')

/-- Bech32 class [a-z0-9] of the native-segwit regular expression. -/
def isBech32Class (c : Char) : Bool :=
  ('a' ≤ c ∧ c ≤ 'z') ∨ ('0' ≤ c ∧ c ≤ '9')

/-- Go Bitcoin.ValidateAddress: legacy base58 branch or bech32 branch. -/
def btcValidateChars (l : List Char) : Bool :=
  (match l with
   | c :: rest =>
       (c = '1' ∨ c = '3') ∧ 26 ≤ l.length ∧ l.length ≤ 35 ∧
       25 ≤ rest.length ∧ rest.length ≤ 34 ∧ rest.all isBase58Class
   | [] => false) ||
  (match l with
   | 'b' :: 'c' :: '1' :: rest =>
       42 ≤ l.length ∧ l.length ≤ 62 ∧
       39 ≤ rest.length ∧ rest.length ≤ 59 ∧ rest.all isBech32Class
   | _ => false)

/-- The closed set of supported assets (Go Bitcoin, Ethereum, USDT). -/
inductive Asset
  | bitcoin
  | ethereum
  | usdt
deriving Repr, DecidableEq

/-- Go Asset.Symbol. -/
def Asset.symbol : Asset → String
  | .bitcoin => "BTC"
  | .ethereum => "ETH"
  | .usdt => "USDT"

/-- Go Asset.ValidateAddress per variant (USDT delegates to Ethereum). -/
def Asset.validateAddress : Asset → String → Bool
  | .bitcoin, a => btcValidateChars a.data
  | .ethereum, a => ethValidateChars a.data
  | .usdt, a => ethValidateChars a.data

/-- Go Asset.NormalizeAddress per variant: trim, and lower-case for the
case-insensitive Ethereum-format assets. -/
def Asset.normalizeAddress : Asset → String → String
  | .bitcoin, a => String.mk (goTrimSpace a.data)
  | .ethereum, a => String.mk ((goTrimSpace a.data).map Char.toLower)
  | .usdt, a => String.mk ((goTrimSpace a.data).map Char.toLower)

/-- Go DefaultAssetRegistry.Get: upper-case the symbol and look it up among
the registered assets, failing with ErrUnsupportedCurrency when unknown. -/
def assetRegistryGet (symbol : String) : Except String Asset :=
  let u := String.mk (symbol.data.map Char.toUpper)
  if u = "BTC" then .ok .bitcoin
  else if u = "ETH" then .ok .ethereum
  else if u = "USDT" then .ok .usdt
  else .error ("unsupported currency: " ++ symbol)

/-- State touched by the intake step: the check registry and the list of
publish calls made on the bus. -/
structure IntakeState where
  reg : Registry
  published : Published
deriving Repr, DecidableEq

/-- Go CheckAddressUseCase.Execute: resolve the asset, normalize and validate
the address, create the record, publish check.requested; the generated uuid
and the wall clock are explicit arguments. -/
def CheckAddressExecute (st : IntakeState) (address currency newID : String)
    (now checkTTL : Int) : IntakeState × Except String String :=
  match assetRegistryGet currency with
  | .error e => (st, .error e)
  | .ok asset =>
      let normalized := asset.normalizeAddress address
      if !(asset.validateAddress normalized) then
        (st, .error "invalid address: invalid address format")
      else
        let check := NewAMLCheck newID normalized asset.symbol now checkTTL
        match regCreate st.reg check with
        | (_, some e) => (st, .error ("failed to create check: " ++ e))
        | (reg', none) =>
            ({ reg := reg',
               published := st.published ++
                 [(EventAMLCheckRequested, .requested newID normalized asset.symbol)] },
             .ok newID)

/-! ## C8: unsupported currency has no side effects -/

/-- C8: when the currency does not resolve in the asset registry — as for
XRP — intake returns the UnsupportedCurrency error, creates no record and
publishes no event: the state is returned exactly as it was. -/
theorem c8_unsupported_currency_no_side_effects (st : IntakeState)
    (address currency newID : String) (now checkTTL : Int) (e : String)
    (h : assetRegistryGet currency = .error e) :
    CheckAddressExecute st address currency newID now checkTTL = (st, .error e) ∧
    (CheckAddressExecute st address currency newID now checkTTL).1.reg = st.reg ∧
    (CheckAddressExecute st address currency newID now checkTTL).1.published = st.published ∧
    assetRegistryGet "XRP" = .error ("unsupported currency: " ++ "XRP") := by
  refine ⟨?_, ?_, ?_, rfl⟩ <;> simp [CheckAddressExecute, h]

/-- Witness for C8: intake on currency XRP over a concrete one-record state
returns the unsupported-currency error with registry and bus untouched. -/
theorem c8_unsupported_currency_witness :
    CheckAddressExecute ⟨[("cid4", checkExpFive)], []⟩ "0xabc" "XRP" "newid" 0 10 =
      (⟨[("cid4", checkExpFive)], []⟩, .error ("unsupported currency: " ++ "XRP")) :=
  (c8_unsupported_currency_no_side_effects ⟨[("cid4", checkExpFive)], []⟩
    "0xabc" "XRP" "newid" 0 10 ("unsupported currency: " ++ "XRP") rfl).1

/-! ## Report storage and the report worker
(internal/infrastructure/storage local storage Put, internal/application
GenerateReportUseCase.Execute)

The blob store is an association list from key to (bytes, expiry); Put
overwrites the entry when the key exists and appends otherwise, exactly the
Go file-overwrite plus metadata map assignment.  PDF rendering (GeneratePDF,
whose bytes depend on the PDF library and the wall clock) enters as the
explicit pdfData argument; the use case validates it, stores it, marks the
check completed and publishes report.ready. -/

abbrev Blob := List Nat × Int

abbrev Store := List (String × Blob)

/-- Keys currently present in the store. -/
def storeKeys (s : Store) : List String := s.map Prod.fst

/-- True when the key is present. -/
def storeHas (s : Store) (key : String) : Bool := s.any (·.1 = key)

/-- Overwrite the blob stored at an existing key. -/
def storeReplace (key : String) (b : Blob) : Store → Store
  | [] => []
  | (k, x) :: rest =>
      if k = key then (key, b) :: storeReplace key b rest
      else (k, x) :: storeReplace key b rest

/-- Go storage Put: overwrite when present, insert otherwise. -/
def storePut (s : Store) (key : String) (data : List Nat) (expiresAt : Int) : Store :=
  if storeHas s key then storeReplace key (data, expiresAt) s
  else s ++ [(key, (data, expiresAt))]

/-- Go report validation: at least 1024 bytes and the %PDF signature. -/
def validPDF (pdfData : List Nat) : Bool :=
  decide (1024 ≤ pdfData.length) && (pdfData.take 4 == [37, 80, 68, 70])

/-- State touched by the report worker: registry, blob store, publish calls. -/
structure ReportState where
  reg : Registry
  store : Store
  published : Published
deriving Repr, DecidableEq

/-- Go GenerateReportUseCase.Execute for a check.completed payload. -/
def GenerateReportExecute (st : ReportState) (checkID : String) (riskScore : Int)
    (riskLevel : RiskLevel) (categories : List String)
    (sanctions : Option SanctionsResult) (pdfData : List Nat)
    (now reportExpiresAt : Int) : ReportState × Option String :=
  match regGet st.reg checkID with
  | none => (st, some "check not found")
  | some check =>
      if !(validPDF pdfData) then (st, some "invalid pdf generated")
      else
        let reportKey := checkID ++ ".pdf"
        let store' := storePut st.store reportKey pdfData reportExpiresAt
        let check' := check.MarkCompleted riskScore riskLevel categories sanctions reportKey now
        match regUpdate st.reg check' with
        | (_, some e) => ({ st with store := store' }, some ("failed to update check: " ++ e))
        | (reg', none) =>
            ({ reg := reg', store := store',
               published := st.published ++
                 [(EventAMLReportReady, .reportReady checkID reportKey)] },
             none)

theorem storeKeys_replace (key : String) (b : Blob) (s : Store) :
    storeKeys (storeReplace key b s) = storeKeys s := by
  induction s with
  | nil => simp [storeReplace]
  | cons e rest ih =>
      obtain ⟨k, x⟩ := e
      by_cases hk : k = key
      · subst hk
        simp [storeReplace, storeKeys] at ih ⊢
        exact ih
      · simp [storeReplace, storeKeys, hk] at ih ⊢
        exact ih

theorem storeHas_put (s : Store) (key : String) (data : List Nat) (expiresAt : Int) :
    storeHas (storePut s key data expiresAt) key = true := by
  by_cases h : storeHas s key
  · have : storeHas (storeReplace key (data, expiresAt) s) key = true := by
      induction s with
      | nil => simp [storeHas] at h
      | cons e rest ih =>
          obtain ⟨k, x⟩ := e
          by_cases hk : k = key
          · subst hk
            simp [storeReplace, storeHas]
          · have h' : storeHas rest key = true := by simpa [storeHas, hk] using h
            simpa [storeReplace, storeHas, hk] using ih h'
    simpa [storePut, h] using this
  · simp only [storePut, if_neg h]
    simp [storeHas]

theorem storeKeys_put_of_has (s : Store) (key : String) (data : List Nat)
    (expiresAt : Int) (h : storeHas s key = true) :
    storeKeys (storePut s key data expiresAt) = storeKeys s := by
  simp [storePut, h, storeKeys_replace]

/-- Evaluation of a successful report-generation run. -/
theorem GenerateReportExecute_success (st : ReportState) (checkID : String)
    (c : AMLCheck) (riskScore : Int) (riskLevel : RiskLevel)
    (categories : List String) (sanctions : Option SanctionsResult)
    (pdfData : List Nat) (now reportExpiresAt : Int)
    (hget : regGet st.reg checkID = some c) (hid : c.id = checkID)
    (hv : validPDF pdfData = true) :
    GenerateReportExecute st checkID riskScore riskLevel categories sanctions
        pdfData now reportExpiresAt =
      ({ reg := regReplace checkID
            (c.MarkCompleted riskScore riskLevel categories sanctions (checkID ++ ".pdf") now)
            st.reg,
         store := storePut st.store (checkID ++ ".pdf") pdfData reportExpiresAt,
         published := st.published ++
           [(EventAMLReportReady, .reportReady checkID (checkID ++ ".pdf"))] },
       none) := by
  have hid' : (c.MarkCompleted riskScore riskLevel categories sanctions
      (checkID ++ ".pdf") now).id = checkID := hid
  have hsome : (regGet st.reg (c.MarkCompleted riskScore riskLevel categories sanctions
      (checkID ++ ".pdf") now).id).isSome := by
    rw [hid', hget]
    rfl
  simp [GenerateReportExecute, hget, hv, regUpdate, hsome, hid']

/-- Fields of the terminal record that the idempotence claim compares
(timestamps are not part of the claim). -/
def sameTerminalState (a b : AMLCheck) : Prop :=
  a.status = b.status ∧ a.riskScore = b.riskScore ∧ a.riskLevel = b.riskLevel ∧
  a.categories = b.categories ∧ a.sanctions = b.sanctions ∧ a.reportKey = b.reportKey

/-- C3: replaying the same check.completed payload twice stores the report
under the same deterministic key (the check id with a .pdf suffix, and no
object under any new key on the second run) and leaves the registry record
in the same terminal state: Completed with identical score, level,
categories, sanctions and report key after both runs. -/
theorem c3_report_worker_idempotent (st : ReportState) (checkID : String)
    (c : AMLCheck) (riskScore : Int) (riskLevel : RiskLevel)
    (categories : List String) (sanctions : Option SanctionsResult)
    (pdf1 pdf2 : List Nat) (now1 now2 exp1 exp2 : Int)
    (hget : regGet st.reg checkID = some c) (hid : c.id = checkID)
    (hv1 : validPDF pdf1 = true) (hv2 : validPDF pdf2 = true) :
    let key := checkID ++ ".pdf"
    let run1 := GenerateReportExecute st checkID riskScore riskLevel categories
      sanctions pdf1 now1 exp1
    let run2 := GenerateReportExecute run1.1 checkID riskScore riskLevel categories
      sanctions pdf2 now2 exp2
    let c1 := c.MarkCompleted riskScore riskLevel categories sanctions key now1
    let c2 := c1.MarkCompleted riskScore riskLevel categories sanctions key now2
    run1.2 = none ∧ run2.2 = none ∧
    storeHas run1.1.store key = true ∧
    storeKeys run2.1.store = storeKeys run1.1.store ∧
    regGet run1.1.reg checkID = some c1 ∧
    regGet run2.1.reg checkID = some c2 ∧
    c1.status = .completed ∧ c2.status = .completed ∧ sameTerminalState c1 c2 := by
  intro key run1 run2 c1 c2
  have h1 := GenerateReportExecute_success st checkID c riskScore riskLevel
    categories sanctions pdf1 now1 exp1 hget hid hv1
  have hget1 : regGet run1.1.reg checkID = some c1 := by
    show regGet (GenerateReportExecute st checkID riskScore riskLevel categories
      sanctions pdf1 now1 exp1).1.reg checkID = some c1
    rw [h1]
    exact regGet_replace_self st.reg checkID c1 (by rw [hget]; rfl)
  have hid1 : c1.id = checkID := hid
  have h2 := GenerateReportExecute_success run1.1 checkID c1 riskScore riskLevel
    categories sanctions pdf2 now2 exp2 hget1 hid1 hv2
  have hhas1 : storeHas run1.1.store key = true := by
    show storeHas (GenerateReportExecute st checkID riskScore riskLevel categories
      sanctions pdf1 now1 exp1).1.store key = true
    rw [h1]
    exact storeHas_put st.store key pdf1 exp1
  refine ⟨by rw [show run1 = _ from h1], by rw [show run2 = _ from h2], hhas1, ?_, hget1, ?_, rfl, rfl,
    ⟨rfl, rfl, rfl, rfl, rfl, rfl⟩⟩
  · show storeKeys (GenerateReportExecute run1.1 checkID riskScore riskLevel categories
      sanctions pdf2 now2 exp2).1.store = storeKeys run1.1.store
    rw [h2]
    exact storeKeys_put_of_has run1.1.store key pdf2 exp2 hhas1
  · show regGet (GenerateReportExecute run1.1 checkID riskScore riskLevel categories
      sanctions pdf2 now2 exp2).1.reg checkID = some c2
    rw [h2]
    exact regGet_replace_self run1.1.reg checkID c2 (by rw [hget1]; rfl)

/-- Minimal valid PDF byte string: the %PDF signature padded to 1024 bytes. -/
def pdfSample : List Nat := 37 :: 80 :: 68 :: 70 :: List.replicate 1020 0

/-- Concrete report-worker state holding one Processing check. -/
def c3State : ReportState := ⟨[("cid3", NewAMLCheck "cid3" "a3" "ETH" 0 100)], [], []⟩

set_option maxRecDepth 8000 in
/-- Witness for C3: running the report worker twice on the same concrete
payload succeeds both times and the store holds exactly the single key
cid3.pdf afterwards. -/
theorem c3_report_worker_idempotent_witness :
    (GenerateReportExecute c3State "cid3" 85 .critical []
      (some { hit := false, identifications := [] }) pdfSample 1 10).2 = none ∧
    storeKeys (GenerateReportExecute
      (GenerateReportExecute c3State "cid3" 85 .critical []
        (some { hit := false, identifications := [] }) pdfSample 1 10).1
      "cid3" 85 .critical [] (some { hit := false, identifications := [] })
      pdfSample 2 11).1.store = ["cid3.pdf"] := by
  have h := c3_report_worker_idempotent c3State "cid3"
    (NewAMLCheck "cid3" "a3" "ETH" 0 100) 85 .critical []
    (some { hit := false, identifications := [] }) pdfSample pdfSample
    1 2 10 11 rfl rfl (by decide) (by decide)
  exact ⟨h.1, (h.2.2.2.1).trans rfl⟩

/-! ## Synchronous facade (internal/transport/http/handlers.go)

The poll loop of CheckAddress is modelled as the sequence of observations the
ticker makes of the registry, one per 500 ms tick until the timeout: None
stands for a tick on which the status use case returned an error (the code
logs and continues), Some check for a successful read.  The end of the list
is the expiry of the bounded-wait timer.  The signed pdf URL of a success
response is represented by the report key it binds. -/

/-- Responses of the facade and of the status query. -/
inductive HTTPResponse
  | ok (riskScore : Int) (riskLevel : RiskLevel) (categories : List String)
      (sanctions : Option SanctionsResult) (reportKey : String)
  | accepted (pollID : String)
  | errorResp (status : Nat) (message : String)
deriving Repr, DecidableEq

/-- Go Handlers.respondCheckResult. -/
def respondCheckResult (c : AMLCheck) : HTTPResponse :=
  .ok c.riskScore c.riskLevel c.categories c.sanctions c.reportKey

/-- Go CheckAddress poll loop: first terminal observation wins, timeout
yields 202 with the check id as poll handle. -/
def checkAddressWait (checkID : String) : List (Option AMLCheck) → HTTPResponse
  | [] => .accepted checkID
  | obs :: rest =>
      match obs with
      | none => checkAddressWait checkID rest
      | some check =>
          if check.status = .completed then respondCheckResult check
          else if check.status = .failed then
            .errorResp 502 ("AML check failed: " ++ check.errorMessage)
          else checkAddressWait checkID rest

/-- Go GetCheckStatusUseCase.Execute. -/
def GetCheckStatusExecute (reg : Registry) (checkID : String) (now : Int) :
    Except String AMLCheck :=
  match regGet reg checkID with
  | none => .error "check not found"
  | some check =>
      if check.IsExpired now then .error "check expired" else .ok check

/-- Go Handlers.GetCheckStatus. -/
def getCheckStatusResponse (reg : Registry) (checkID : String) (now : Int) :
    HTTPResponse :=
  match GetCheckStatusExecute reg checkID now with
  | .error e =>
      if e = "check not found" then .errorResp 404 "check not found"
      else if e = "check expired" then .errorResp 410 "check expired"
      else .errorResp 500 "failed to get check status"
  | .ok check =>
      if check.status = .processing then .accepted checkID
      else if check.status = .failed then
        .errorResp 500 ("check failed: " ++ check.errorMessage)
      else respondCheckResult check

/-- An observation on which the poll loop keeps waiting: a read error or a
still-Processing record. -/
def obsNonTerminal : Option AMLCheck → Prop
  | none => True
  | some c => c.status = .processing

theorem checkAddressWait_append (checkID : String) (pre tail : List (Option AMLCheck))
    (hpre : ∀ o ∈ pre, obsNonTerminal o) :
    checkAddressWait checkID (pre ++ tail) = checkAddressWait checkID tail := by
  induction pre with
  | nil => rfl
  | cons o rest ih =>
      have hrest : ∀ o ∈ rest, obsNonTerminal o := fun o ho => hpre o (List.mem_cons_of_mem _ ho)
      match o with
      | none => simpa [checkAddressWait] using ih hrest
      | some c =>
          have hc : c.status = .processing := hpre (some c) (List.mem_cons_self _ _)
          simp [checkAddressWait, hc]
          exact ih hrest

/-! ## C6: bounded wait and the poll handle -/

/-- C6: if a terminal state is observed before the bounded wait elapses, the
facade returns that terminal result (full success result for Completed, a
failure response for Failed); if every observation up to the timeout is
non-terminal, it returns an accepted response carrying the check id as poll
handle, and the plain status query for that id returns the same terminal
result once the workers have finished (identical success response for
Completed, a failure response carrying the same error message for Failed). -/
theorem c6_bounded_wait_poll (checkID : String) (pre post : List (Option AMLCheck))
    (c : AMLCheck) (reg : Registry) (now : Int)
    (hpre : ∀ o ∈ pre, obsNonTerminal o)
    (hreg : regGet reg checkID = some c) (hexp : c.IsExpired now = false) :
    (c.status = .completed →
      checkAddressWait checkID (pre ++ some c :: post) = respondCheckResult c ∧
      getCheckStatusResponse reg checkID now = respondCheckResult c) ∧
    (c.status = .failed →
      checkAddressWait checkID (pre ++ some c :: post) =
        .errorResp 502 ("AML check failed: " ++ c.errorMessage) ∧
      getCheckStatusResponse reg checkID now =
        .errorResp 500 ("check failed: " ++ c.errorMessage)) ∧
    checkAddressWait checkID pre = .accepted checkID := by
  have hwait := checkAddressWait_append checkID pre (some c :: post) hpre
  have hempty : checkAddressWait checkID (pre ++ []) = checkAddressWait checkID [] :=
    checkAddressWait_append checkID pre [] hpre
  refine ⟨fun hst => ⟨?_, ?_⟩, fun hst => ⟨?_, ?_⟩, ?_⟩
  · rw [hwait]
    simp [checkAddressWait, hst]
  · simp [getCheckStatusResponse, GetCheckStatusExecute, hreg, hexp, hst]
  · rw [hwait]
    simp [checkAddressWait, hst]
  · simp [getCheckStatusResponse, GetCheckStatusExecute, hreg, hexp, hst]
  · simpa [checkAddressWait] using hempty

/-- Witness for C6 at concrete inputs: an error tick and a Processing tick,
then the completed record; the facade and a later status query both return
the same success response, and an all-non-terminal trace yields 202. -/
theorem c6_bounded_wait_poll_witness :
    checkAddressWait "cid2"
        [none, some (NewAMLCheck "cid2" "addr2" "ETH" 0 100), some completedSample] =
      respondCheckResult completedSample ∧
    getCheckStatusResponse [("cid2", completedSample)] "cid2" 5 =
      respondCheckResult completedSample ∧
    checkAddressWait "cid2" [none, some (NewAMLCheck "cid2" "addr2" "ETH" 0 100)] =
      .accepted "cid2" := by
  have h := c6_bounded_wait_poll "cid2"
    [none, some (NewAMLCheck "cid2" "addr2" "ETH" 0 100)] []
    completedSample [("cid2", completedSample)] 5
    (by
      intro o ho
      simp only [List.mem_cons, List.not_mem_nil, or_false] at ho
      rcases ho with rfl | rfl
      · trivial
      · rfl)
    rfl rfl
  exact ⟨(h.1 rfl).1, (h.1 rfl).2, h.2.2⟩

/-! ## C1: message bus retry and dead-lettering
(RabbitMQBus.Subscribe consumption loop)

One delivery attempt is the Go select-branch body: read the retry counter
from the headers (0 when absent), invoke the handler, then acknowledge,
republish with the incremented counter, or publish to the dead-letter
exchange according to the counter.  A full run for one logical message
follows the republished deliveries until the handler succeeds or the message
is dead-lettered; the handler fails on the first `failures` invocations. -/

def MaxRetries : Nat := 3

/-- A message published to the dead-letter exchange with its headers. -/
structure DLQMessage where
  originalQueue : String
  originalRouting : String
  retryCount : Nat
  lastError : String
  failedTimestamp : Int
  body : String
deriving Repr, DecidableEq

/-- Outcome of one delivery attempt. -/
inductive DeliveryAction
  | ackOnly
  | republishAck (routingKey : String) (retryCount : Nat)
  | dlqAck (m : DLQMessage)
  | nackNoRequeue
  | nackRequeue
deriving Repr, DecidableEq

/-- One iteration of the Go consumption loop for a delivered message. -/
def handleDelivery (queueName routingKey body : String) (timestamp : Int)
    (retryCount : Nat) (handlerErr : Option String) (publishOk : Bool) :
    DeliveryAction :=
  match handlerErr with
  | none => .ackOnly
  | some e =>
      if MaxRetries ≤ retryCount then
        if publishOk then .dlqAck ⟨queueName, routingKey, retryCount, e, timestamp, body⟩
        else .nackNoRequeue
      else
        if publishOk then .republishAck routingKey (retryCount + 1)
        else .nackRequeue

/-- Follow one logical message through the loop, handler failing on the
first `failures` invocations, publishes succeeding: returns the dead-letter
messages produced and whether the message was finally acknowledged after a
handler success. -/
def runDeliveries (queueName routingKey body errMsg : String) (timestamp : Int) :
    Nat → Nat → List DLQMessage × Bool
  | _, 0 => ([], true)
  | rc, failuresLeft + 1 =>
      match handleDelivery queueName routingKey body timestamp rc (some errMsg) true with
      | .republishAck _ rc' =>
          runDeliveries queueName routingKey body errMsg timestamp rc' failuresLeft
      | .dlqAck m => ([m], false)
      | _ => ([], false)

/-- C1: a failing delivery with counter below 3 is republished to its
original routing key with the counter incremented and acknowledged; one with
counter 3 (the only value at or above maxRetries the protocol reaches)
produces one dead-letter message annotated with the original queue, routing
key, the counter (= maxRetries), the handler error and the original
timestamp, and is acknowledged; a message whose handler fails at most 3
times is finally acknowledged normally with no dead-letter message, while
one failing 4 or more times produces exactly one dead-letter message with
retry count 3. -/
theorem c1_retry_dlq (queueName routingKey body errMsg : String) (timestamp : Int)
    (retryCount failures : Nat) :
    (retryCount < MaxRetries →
      handleDelivery queueName routingKey body timestamp retryCount (some errMsg) true =
        .republishAck routingKey (retryCount + 1)) ∧
    (retryCount = MaxRetries →
      handleDelivery queueName routingKey body timestamp retryCount (some errMsg) true =
        .dlqAck ⟨queueName, routingKey, MaxRetries, errMsg, timestamp, body⟩) ∧
    (failures ≤ MaxRetries →
      runDeliveries queueName routingKey body errMsg timestamp 0 failures = ([], true)) ∧
    (MaxRetries < failures →
      runDeliveries queueName routingKey body errMsg timestamp 0 failures =
        ([⟨queueName, routingKey, MaxRetries, errMsg, timestamp, body⟩], false)) := by
  refine ⟨fun h => ?_, fun h => ?_, fun h => ?_, fun h => ?_⟩
  · simp [handleDelivery, Nat.not_le.mpr h]
  · subst h
    simp [handleDelivery]
  · simp only [MaxRetries] at h
    interval_cases failures <;> rfl
  · simp only [MaxRetries] at h
    obtain ⟨j, rfl⟩ : ∃ j, failures = j + 4 := ⟨failures - 4, by omega⟩
    rfl

/-- Witness for C1: with three failures the message is acknowledged normally
and no dead-letter message exists; with four failures exactly one
dead-letter message with retry count 3 is produced. -/
theorem c1_retry_dlq_witness :
    runDeliveries "q_report_jobs" "aml.check.completed" "body" "boom" 7 0 3 =
      ([], true) ∧
    runDeliveries "q_report_jobs" "aml.check.completed" "body" "boom" 7 0 4 =
      ([⟨"q_report_jobs", "aml.check.completed", 3, "boom", 7, "body"⟩], false) ∧
    handleDelivery "q_report_jobs" "aml.check.completed" "body" 7 1 (some "boom") true =
      .republishAck "aml.check.completed" 2 :=
  ⟨(c1_retry_dlq "q_report_jobs" "aml.check.completed" "body" "boom" 7 0 3).2.2.1
      (by norm_num [MaxRetries]),
   (c1_retry_dlq "q_report_jobs" "aml.check.completed" "body" "boom" 7 0 4).2.2.2
      (by norm_num [MaxRetries]),
   (c1_retry_dlq "q_report_jobs" "aml.check.completed" "body" "boom" 7 1 4).1
      (by norm_num [MaxRetries])⟩

/-! ## Signed report tokens (internal/infrastructure/token/hmac.go)

Go strings here are byte strings manipulated byte by byte, modelled as
List Nat with each byte below 256.  The HMAC-SHA256 tag is an external
primitive: it enters as the function parameter tagF applied to the encoded
payload, exactly where the Go code feeds the payload into the keyed mac.
Base64 (Go encoding/base64 URLEncoding, padded, non-strict decode) and the
decimal formatting/parsing of the expiry (fmt %d / strconv.ParseInt base 10)
are embedded concretely. -/

/-- The base64url alphabet: index to byte. -/
def b64Char (i : Nat) : Nat :=
  if i < 26 then 65 + i
  else if i < 52 then 97 + (i - 26)
  else if i < 62 then 48 + (i - 52)
  else if i = 62 then 45
  else 95

/-- The base64url alphabet: byte back to index. -/
def b64CharDec (c : Nat) : Option Nat :=
  if 65 ≤ c ∧ c ≤ 90 then some (c - 65)
  else if 97 ≤ c ∧ c ≤ 122 then some (26 + (c - 97))
  else if 48 ≤ c ∧ c ≤ 57 then some (52 + (c - 48))
  else if c = 45 then some 62
  else if c = 95 then some 63
  else none

/-- Go base64.URLEncoding.EncodeToString over bytes, with = padding (61). -/
def b64Encode : List Nat → List Nat
  | [] => []
  | [b1] => [b64Char (b1 / 4), b64Char (b1 % 4 * 16), 61, 61]
  | [b1, b2] =>
      [b64Char (b1 / 4), b64Char (b1 % 4 * 16 + b2 / 16), b64Char (b2 % 16 * 4), 61]
  | b1 :: b2 :: b3 :: rest =>
      b64Char (b1 / 4) :: b64Char (b1 % 4 * 16 + b2 / 16) ::
      b64Char (b2 % 16 * 4 + b3 / 64) :: b64Char (b3 % 64) :: b64Encode rest

/-- Go base64.URLEncoding.DecodeString: groups of four characters, padding
only in the final group. -/
def b64Decode : List Nat → Option (List Nat)
  | [] => some []
  | c1 :: c2 :: c3 :: c4 :: rest =>
      match b64CharDec c1, b64CharDec c2 with
      | some v1, some v2 =>
          if c3 = 61 then
            if c4 = 61 then
              if rest = [] then some [v1 * 4 + v2 / 16] else none
            else none
          else
            match b64CharDec c3 with
            | some v3 =>
                if c4 = 61 then
                  if rest = [] then some [v1 * 4 + v2 / 16, v2 % 16 * 16 + v3 / 4]
                  else none
                else
                  match b64CharDec c4, b64Decode rest with
                  | some v4, some tail =>
                      some ((v1 * 4 + v2 / 16) :: (v2 % 16 * 16 + v3 / 4) ::
                            (v3 % 4 * 64 + v4) :: tail)
                  | _, _ => none
            | none => none
      | _, _ => none
  | _ => none

/-- Go strings.SplitN(s, sep, 2): split at the first separator; None when
the separator does not occur (one part in Go, rejected by the caller). -/
def splitFirst (sep : Nat) : List Nat → Option (List Nat × List Nat)
  | [] => none
  | c :: rest =>
      if c = sep then some ([], rest)
      else
        match splitFirst sep rest with
        | none => none
        | some (pre, post) => some (c :: pre, post)

/-- Decimal digits of a natural number, most significant first, as ASCII
bytes; the fuel argument makes the recursion structural (fuel above n is
always sufficient). -/
def natDigitsGo : Nat → Nat → List Nat
  | 0, _ => []
  | fuel + 1, n =>
      if n < 10 then [48 + n]
      else natDigitsGo fuel (n / 10) ++ [48 + n % 10]

/-- ASCII decimal digits of a natural number, most significant first. -/
def natDigits (n : Nat) : List Nat := natDigitsGo (n + 1) n

/-- Go fmt %d of the int64 expiry. -/
def intToBytes (i : Int) : List Nat :=
  if i < 0 then 45 :: natDigits i.natAbs else natDigits i.toNat

/-- Numeric value of an ASCII digit byte. -/
def digitVal (c : Nat) : Option Nat :=
  if 48 ≤ c ∧ c ≤ 57 then some (c - 48) else none

/-- Left fold of decimal digits, failing on any non-digit byte. -/
def parseDigitsAux : Nat → List Nat → Option Nat
  | acc, [] => some acc
  | acc, c :: rest =>
      match digitVal c with
      | none => none
      | some d => parseDigitsAux (acc * 10 + d) rest

/-- Digits-only parse; empty input is an error. -/
def parseDigits : List Nat → Option Nat
  | [] => none
  | s => parseDigitsAux 0 s

/-- Go strconv.ParseInt(s, 10, 64): optional sign then decimal digits. -/
def goParseInt (s : List Nat) : Option Int :=
  match s with
  | [] => none
  | c :: rest =>
      if c = 43 then (parseDigits rest).map (fun v => (v : Int))
      else if c = 45 then (parseDigits rest).map (fun v => -(v : Int))
      else (parseDigits (c :: rest)).map (fun v => (v : Int))

/-- Go HMACToken.Sign: payload = key ":" expiry, base64url-encoded, tagged
with the keyed mac of the encoded payload, joined with a dot (46). -/
def hmacSign (tagF : List Nat → List Nat) (key : List Nat) (now expires : Int) :
    List Nat :=
  let expiresAt := now + expires
  let encodedPayload := b64Encode (key ++ 58 :: intToBytes expiresAt)
  encodedPayload ++ 46 :: b64Encode (tagF encodedPayload)

/-- Go HMACToken.Verify at wall-clock now. -/
def hmacVerify (tagF : List Nat → List Nat) (now : Int) (token : List Nat) :
    Except String (List Nat) :=
  match splitFirst 46 token with
  | none => .error "invalid token format"
  | some (encodedPayload, providedSig) =>
      if providedSig ≠ b64Encode (tagF encodedPayload) then
        .error "invalid token signature"
      else
        match b64Decode encodedPayload with
        | none => .error "invalid token encoding"
        | some payload =>
            match splitFirst 58 payload with
            | none => .error "invalid token payload"
            | some (key, expBytes) =>
                match goParseInt expBytes with
                | none => .error "invalid expiration time"
                | some expiresAt =>
                    if goAfter now expiresAt then .error "token expired"
                    else .ok key

theorem b64CharDec_b64Char (x : Nat) (hx : x < 64) :
    b64CharDec (b64Char x) = some x := by
  interval_cases x <;> rfl

theorem b64Char_ne_dot_pad (x : Nat) : b64Char x ≠ 46 ∧ b64Char x ≠ 61 := by
  unfold b64Char
  split_ifs <;> omega

theorem dot_not_mem_b64Encode : ∀ bs : List Nat, (46 : Nat) ∉ b64Encode bs
  | [] => by simp [b64Encode]
  | [b1] => by
      intro hmem
      simp only [b64Encode, List.mem_cons, List.not_mem_nil, or_false] at hmem
      rcases hmem with h | h | h | h
      · exact (b64Char_ne_dot_pad _).1 h.symm
      · exact (b64Char_ne_dot_pad _).1 h.symm
      · omega
      · omega
  | [b1, b2] => by
      intro hmem
      simp only [b64Encode, List.mem_cons, List.not_mem_nil, or_false] at hmem
      rcases hmem with h | h | h | h
      · exact (b64Char_ne_dot_pad _).1 h.symm
      · exact (b64Char_ne_dot_pad _).1 h.symm
      · exact (b64Char_ne_dot_pad _).1 h.symm
      · omega
  | b1 :: b2 :: b3 :: rest => by
      intro hmem
      simp only [b64Encode, List.mem_cons] at hmem
      rcases hmem with h | h | h | h | h
      · exact (b64Char_ne_dot_pad _).1 h.symm
      · exact (b64Char_ne_dot_pad _).1 h.symm
      · exact (b64Char_ne_dot_pad _).1 h.symm
      · exact (b64Char_ne_dot_pad _).1 h.symm
      · exact dot_not_mem_b64Encode rest h

theorem b64_roundtrip : ∀ bs : List Nat, (∀ b ∈ bs, b < 256) →
    b64Decode (b64Encode bs) = some bs
  | [], _ => rfl
  | [b1], h => by
      have hb1 : b1 < 256 := h b1 (by simp)
      have h1 : b64CharDec (b64Char (b1 / 4)) = some (b1 / 4) :=
        b64CharDec_b64Char _ (by omega)
      have h2 : b64CharDec (b64Char (b1 % 4 * 16)) = some (b1 % 4 * 16) :=
        b64CharDec_b64Char _ (by omega)
      simp [b64Encode, b64Decode, h1, h2]
      omega
  | [b1, b2], h => by
      have hb1 : b1 < 256 := h b1 (by simp)
      have hb2 : b2 < 256 := h b2 (by simp)
      have h1 : b64CharDec (b64Char (b1 / 4)) = some (b1 / 4) :=
        b64CharDec_b64Char _ (by omega)
      have h2 : b64CharDec (b64Char (b1 % 4 * 16 + b2 / 16)) =
          some (b1 % 4 * 16 + b2 / 16) := b64CharDec_b64Char _ (by omega)
      have h3 : b64CharDec (b64Char (b2 % 16 * 4)) = some (b2 % 16 * 4) :=
        b64CharDec_b64Char _ (by omega)
      have hne3 := (b64Char_ne_dot_pad (b2 % 16 * 4)).2
      simp [b64Encode, b64Decode, h1, h2, h3, hne3]
      constructor <;> omega
  | b1 :: b2 :: b3 :: rest, h => by
      have hb1 : b1 < 256 := h b1 (by simp)
      have hb2 : b2 < 256 := h b2 (by simp)
      have hb3 : b3 < 256 := h b3 (by simp)
      have ih : b64Decode (b64Encode rest) = some rest :=
        b64_roundtrip rest (fun b hb => h b (by simp [hb]))
      have h1 : b64CharDec (b64Char (b1 / 4)) = some (b1 / 4) :=
        b64CharDec_b64Char _ (by omega)
      have h2 : b64CharDec (b64Char (b1 % 4 * 16 + b2 / 16)) =
          some (b1 % 4 * 16 + b2 / 16) := b64CharDec_b64Char _ (by omega)
      have h3 : b64CharDec (b64Char (b2 % 16 * 4 + b3 / 64)) =
          some (b2 % 16 * 4 + b3 / 64) := b64CharDec_b64Char _ (by omega)
      have h4 : b64CharDec (b64Char (b3 % 64)) = some (b3 % 64) :=
        b64CharDec_b64Char _ (by omega)
      have hne3 := (b64Char_ne_dot_pad (b2 % 16 * 4 + b3 / 64)).2
      have hne4 := (b64Char_ne_dot_pad (b3 % 64)).2
      simp [b64Encode, b64Decode, h1, h2, h3, h4, hne3, hne4, ih]
      refine ⟨?_, ?_, ?_⟩ <;> omega

theorem splitFirst_append (sep : Nat) (xs ys : List Nat) (h : sep ∉ xs) :
    splitFirst sep (xs ++ sep :: ys) = some (xs, ys) := by
  induction xs with
  | nil => simp [splitFirst]
  | cons c rest ih =>
      simp only [List.mem_cons, not_or] at h
      have ih' := ih h.2
      simp [splitFirst, Ne.symm h.1, ih']

theorem natDigitsGo_mem : ∀ (fuel n : Nat), n < fuel →
    ∀ b ∈ natDigitsGo fuel n, 48 ≤ b ∧ b ≤ 57
  | 0, n, h => absurd h (by omega)
  | fuel + 1, n, h => by
      by_cases h10 : n < 10
      · simp only [natDigitsGo, if_pos h10, List.mem_singleton]
        intro b hb
        omega
      · intro b hb
        simp only [natDigitsGo, if_neg h10, List.mem_append, List.mem_singleton] at hb
        rcases hb with hb | hb
        · exact natDigitsGo_mem fuel (n / 10) (by omega) b hb
        · omega

theorem parseDigitsAux_append (xs : List Nat) : ∀ (acc a : Nat) (ys : List Nat),
    parseDigitsAux acc xs = some a →
    parseDigitsAux acc (xs ++ ys) = parseDigitsAux a ys := by
  induction xs with
  | nil =>
      intro acc a ys h
      simp only [parseDigitsAux, Option.some.injEq] at h
      subst h
      rfl
  | cons c rest ih =>
      intro acc a ys h
      cases hd : digitVal c with
      | none => simp [parseDigitsAux, hd] at h
      | some d =>
          simp only [parseDigitsAux, hd] at h
          simpa [parseDigitsAux, hd] using ih _ _ ys h

theorem parseDigitsAux_natDigitsGo : ∀ (fuel n acc : Nat), n < fuel →
    parseDigitsAux acc (natDigitsGo fuel n) =
      some (acc * 10 ^ (natDigitsGo fuel n).length + n)
  | 0, n, acc, h => absurd h (by omega)
  | fuel + 1, n, acc, h => by
      by_cases h10 : n < 10
      · have hd : digitVal (48 + n) = some n := by
          simp only [digitVal]
          rw [if_pos (by omega)]
          congr 1
          omega
        simp [natDigitsGo, h10, parseDigitsAux, hd]
      · have hrec := parseDigitsAux_natDigitsGo fuel (n / 10) acc (by omega)
        have hd : digitVal (48 + n % 10) = some (n % 10) := by
          simp only [digitVal]
          rw [if_pos (by omega)]
          congr 1
          omega
        simp only [natDigitsGo, if_neg h10]
        rw [parseDigitsAux_append _ _ _ _ hrec]
        simp only [parseDigitsAux, hd, List.length_append, List.length_singleton]
        congr 1
        have hdm : n / 10 * 10 + n % 10 = n := by omega
        calc (acc * 10 ^ (natDigitsGo fuel (n / 10)).length + n / 10) * 10 + n % 10
            = acc * 10 ^ (natDigitsGo fuel (n / 10)).length * 10 +
              (n / 10 * 10 + n % 10) := by ring
          _ = acc * 10 ^ ((natDigitsGo fuel (n / 10)).length + 1) + n := by
              rw [hdm, pow_succ]
              ring

theorem natDigits_mem (n : Nat) : ∀ b ∈ natDigits n, 48 ≤ b ∧ b ≤ 57 :=
  natDigitsGo_mem (n + 1) n (by omega)

theorem natDigits_ne_nil (n : Nat) : natDigits n ≠ [] := by
  unfold natDigits natDigitsGo
  by_cases h : n < 10 <;> simp [h]

theorem parseDigits_natDigits (n : Nat) : parseDigits (natDigits n) = some n := by
  obtain ⟨c, cs, heq⟩ := List.exists_cons_of_ne_nil (natDigits_ne_nil n)
  have h := parseDigitsAux_natDigitsGo (n + 1) n 0 (by omega)
  rw [show natDigitsGo (n + 1) n = natDigits n from rfl] at h
  rw [heq] at h ⊢
  simp only [parseDigits]
  simpa using h

theorem goParseInt_intToBytes (i : Int) : goParseInt (intToBytes i) = some i := by
  by_cases hneg : i < 0
  · have habs : ((i.natAbs : Int)) = -i := by omega
    have habs' : |i| = -i := abs_of_nonpos (by omega)
    simp only [intToBytes, if_pos hneg]
    simp [goParseInt, parseDigits_natDigits, habs, habs']
  · simp only [intToBytes, if_neg hneg]
    obtain ⟨c, cs, heq⟩ := List.exists_cons_of_ne_nil (natDigits_ne_nil i.toNat)
    have hc := (natDigits_mem i.toNat) c (by rw [heq]; simp)
    have hne1 : ¬ c = 43 := by omega
    have hne2 : ¬ c = 45 := by omega
    rw [heq]
    simp only [goParseInt, if_neg hne1, if_neg hne2]
    rw [← heq, parseDigits_natDigits]
    simp
    omega

theorem intToBytes_bytes (i : Int) : ∀ b ∈ intToBytes i, b < 256 := by
  intro b hb
  simp only [intToBytes] at hb
  by_cases hneg : i < 0
  · rw [if_pos hneg] at hb
    rcases List.mem_cons.mp hb with rfl | hb'
    · omega
    · have := natDigits_mem i.natAbs b hb'
      omega
  · rw [if_neg hneg] at hb
    have := natDigits_mem i.toNat b hb
    omega

theorem colon_not_mem_intToBytes (i : Int) : (58 : Nat) ∉ intToBytes i := by
  intro hmem
  simp only [intToBytes] at hmem
  by_cases hneg : i < 0
  · rw [if_pos hneg] at hmem
    rcases List.mem_cons.mp hmem with h | h
    · omega
    · have := natDigits_mem i.natAbs 58 h
      omega
  · rw [if_neg hneg] at hmem
    have := natDigits_mem i.toNat 58 hmem
    omega

/-! ## C7: signed report tokens

The claim quantifies over every report key; Verify splits the decoded
payload at the FIRST colon, so a key that itself contains a colon byte makes
the embedded expiry unparseable and the round trip fails — refuted below at
the key "a:b".  The amended claim restricts to keys without a colon byte
(every key the system generates is checkID.pdf, colon-free); for those the
round trip is proved, together with: Verify returns a key only when the
provided tag equals the keyed mac of the payload and the embedded expiry is
not in the past, so tampered or expired tokens are always rejected. -/


/-- C7 (amended): for every report key free of colon bytes, verifying a
token produced by signing that key succeeds at any time not after the expiry
and returns exactly the original key; and Verify returns a key only when the
token splits at a dot, its tag matches the keyed mac of its payload, the
payload decodes and splits at a colon, the expiry parses, and the expiry is
not in the past — so a token with a mismatched tag or a past expiry is
always rejected with an error. -/
theorem c7_sign_verify (tagF : List Nat → List Nat) (key : List Nat)
    (now expires verifyNow : Int)
    (hbytes : ∀ b ∈ key, b < 256) (hnocolon : (58 : Nat) ∉ key)
    (hfresh : verifyNow ≤ now + expires) :
    hmacVerify tagF verifyNow (hmacSign tagF key now expires) = .ok key ∧
    (∀ (token k : List Nat), hmacVerify tagF verifyNow token = .ok k →
      ∃ enc sig payload expBytes expiresAt,
        splitFirst 46 token = some (enc, sig) ∧
        sig = b64Encode (tagF enc) ∧
        b64Decode enc = some payload ∧
        splitFirst 58 payload = some (k, expBytes) ∧
        goParseInt expBytes = some expiresAt ∧
        verifyNow ≤ expiresAt) := by
  constructor
  · have hpayload : ∀ b ∈ key ++ 58 :: intToBytes (now + expires), b < 256 := by
      intro b hb
      rcases List.mem_append.mp hb with h | h
      · exact hbytes b h
      · rcases List.mem_cons.mp h with rfl | h'
        · omega
        · exact intToBytes_bytes (now + expires) b h'
    have hdec := b64_roundtrip (key ++ 58 :: intToBytes (now + expires)) hpayload
    have hsplit1 := splitFirst_append 46
      (b64Encode (key ++ 58 :: intToBytes (now + expires)))
      (b64Encode (tagF (b64Encode (key ++ 58 :: intToBytes (now + expires)))))
      (dot_not_mem_b64Encode _)
    have hsplit2 := splitFirst_append 58 key (intToBytes (now + expires)) hnocolon
    have hparse := goParseInt_intToBytes (now + expires)
    have hga : goAfter verifyNow (now + expires) = false := by
      simp only [goAfter, decide_eq_false_iff_not, not_lt]
      exact hfresh
    simp only [hmacSign, hmacVerify]
    rw [hsplit1]
    simp [hdec, hsplit2, hparse, hga]
  · intro token k hok
    unfold hmacVerify at hok
    split at hok
    · exact absurd hok (by simp)
    · rename_i enc sig hsp
      split at hok
      · exact absurd hok (by simp)
      · rename_i hsig
        rw [not_not] at hsig
        split at hok
        · exact absurd hok (by simp)
        · rename_i payload hdc
          split at hok
          · exact absurd hok (by simp)
          · rename_i key' expBytes hsp2
            split at hok
            · exact absurd hok (by simp)
            · rename_i expiresAt hpi
              split at hok
              · exact absurd hok (by simp)
              · rename_i hexp
                simp only [Except.ok.injEq] at hok
                subst hok
                refine ⟨enc, sig, payload, expBytes, expiresAt, hsp, hsig, hdc, hsp2, hpi, ?_⟩
                simp only [goAfter, decide_eq_true_eq] at hexp
                omega

/-- Constant stand-in mac for concrete token computations; Verify recomputes
the tag over the same bytes, so the comparison passes for any function. -/
def tagConst : List Nat → List Nat := fun _ => [1, 2]

/-- C7 counterexample: signing the report key "a:b" (bytes 97 58 98, which
contains a colon) and verifying well before the expiry returns the
invalid-expiration error, not the key: Verify splits the decoded payload at
the FIRST colon, so the embedded expiry becomes unparseable. -/
theorem c7_colon_key_counterexample :
    hmacVerify tagConst 0 (hmacSign tagConst [97, 58, 98] 0 10) =
      .error "invalid expiration time" := by
  rfl

/-- Witness for C7 at a colon-free key (the bytes of "c7.pdf"): signing and
verifying before expiry returns exactly the original key. -/
theorem c7_sign_verify_witness :
    hmacVerify tagConst 50 (hmacSign tagConst [99, 55, 46, 112, 100, 102] 0 100) =
      .ok [99, 55, 46, 112, 100, 102] :=
  (c7_sign_verify tagConst [99, 55, 46, 112, 100, 102] 0 100 50 (by decide) (by decide)
    (by norm_num)).1
